import Mathlib

/-!
Verification of the geospatial selection and query engine of the SHFB access
score dashboard (src/app.py) against its natural-language specification.

The pandas/geopandas program is shallowly embedded: data frames become lists
of structures, column operations become list operations, and floating point
score arithmetic is modelled on exact rationals.  Concrete rational values are
written with Rat.divInt / mkRat so that every definition is kernel-computable.
-/

/-! Character-level string utilities.  Lean's String comparison functions
(String.ltb) are defined by well-founded recursion and do not reduce in the
kernel, so lexicographic comparison and the pandas-style normalization steps
are implemented directly on character lists. -/

/-- Lexicographic strict comparison of character lists, ordering characters by
code point.  Used to give region identifiers the stable ascending order the
resolver specification demands. -/
def charListLt : List Char → List Char → Bool
  | [], [] => false
  | [], _ :: _ => true
  | _ :: _, [] => false
  | a :: as, b :: bs => if a < b then true else if b < a then false else charListLt as bs

/-- Strict lexicographic order on strings (via their character lists). -/
def strLt (a b : String) : Bool := charListLt a.data b.data

/-- Reflexive lexicographic order on strings: a is at most b when b is not
strictly smaller. -/
def strLe (a b : String) : Bool := !(strLt b a)

/-- Remove leading and trailing whitespace, as pandas Series.str.strip does. -/
def stripChars (l : List Char) : List Char :=
  ((l.dropWhile Char.isWhitespace).reverse.dropWhile Char.isWhitespace).reverse

/-- Lower-case every character (ASCII case folding as in the source's
case-insensitive regex match). -/
def toLowerList (l : List Char) : List Char := l.map Char.toLower

/-- Drop a trailing "county" token, case-insensitively, together with the
whitespace immediately before it.  This is the character-level meaning of the
source's regex replacement of r"\s*county$" (case=False) with the empty
string. -/
def stripCountyToken (l : List Char) : List Char :=
  if ("county".data).isSuffixOf (toLowerList l) then
    ((l.take (l.length - 6)).reverse.dropWhile Char.isWhitespace).reverse
  else l

/-- Worker for titleCase: carries whether the previous character was
alphabetic. -/
def titleCaseGo : List Char → Bool → List Char
  | [], _ => []
  | c :: cs, prevAlpha =>
    (if c.isAlpha then (if prevAlpha then c.toLower else c.toUpper) else c) ::
      titleCaseGo cs c.isAlpha

/-- Python str.title as used by pandas Series.str.title: the first character
of every maximal alphabetic run is upper-cased, the rest lower-cased. -/
def titleCase (l : List Char) : List Char := titleCaseGo l false

/-- County label normalization exactly as in app.py lines 125-131:
strip surrounding whitespace, delete a trailing case-insensitive "county"
token (with the whitespace before it), then title-case. -/
def normalizeCounty (s : String) : String :=
  String.mk (titleCase (stripCountyToken (stripChars s.data)))

/-! Data model.  One ScoreRecord per row of the precomputed score table
(pre_df); scores and threshold minutes are exact rationals, week and hour are
integers, the day is a categorical label, and the top_agencies payload is the
serialized JSON text stored in the parquet column. -/

/-- One row of the precomputed access score table (pre_df in app.py). -/
structure ScoreRecord where
  geoid : String
  urban_threshold : ℚ
  rural_threshold : ℚ
  week : ℤ
  day : String
  hour : ℤ
  access_score : ℚ
  top_agencies : String
  deriving DecidableEq

/-- The sidebar filter state of app.py lines 42-47: the selected thresholds,
week, day, the hour slider value, and the after-hours checkbox. -/
structure QuerySelection where
  urban_threshold : ℚ
  rural_threshold : ℚ
  week : ℤ
  day : String
  hour : ℤ
  after_hours : Bool

/-- The filter stage of app.py lines 56-73 (filtered_df): in after-hours mode
rows must match the thresholds, week and day and have hour at least 17; in
exact mode they must match the thresholds, week, day and the selected hour. -/
def filterRecords (pre : List ScoreRecord) (sel : QuerySelection) : List ScoreRecord :=
  if sel.after_hours then
    pre.filter (fun r =>
      decide (r.urban_threshold = sel.urban_threshold) &&
      decide (r.rural_threshold = sel.rural_threshold) &&
      decide (r.week = sel.week) &&
      decide (r.day = sel.day) &&
      decide (17 ≤ r.hour))
  else
    pre.filter (fun r =>
      decide (r.urban_threshold = sel.urban_threshold) &&
      decide (r.rural_threshold = sel.rural_threshold) &&
      decide (r.week = sel.week) &&
      decide (r.day = sel.day) &&
      decide (r.hour = sel.hour))

/-- One row of the tract shapefile (tracts_gdf): the tract identifier, the
raw NAMELSADCO county label, and the polygon as a ring of lon/lat vertices. -/
structure GeoRow where
  geoid : String
  namelsadco : String
  polygon : List (ℚ × ℚ)
  deriving DecidableEq

/-- A shapefile row with the normalized County_clean column added
(tracts_clean in app.py lines 123-131). -/
structure CleanGeoRow where
  geoid : String
  namelsadco : String
  county_clean : String
  polygon : List (ℚ × ℚ)
  deriving DecidableEq

/-- Add the County_clean column to every tract row. -/
def cleanTracts (geo : List GeoRow) : List CleanGeoRow :=
  geo.map (fun g =>
    { geoid := g.geoid, namelsadco := g.namelsadco,
      county_clean := normalizeCounty g.namelsadco, polygon := g.polygon })

/-- The hard-coded 18-entry allow list of app.py lines 134-138. -/
def targetCounties : List String :=
  ["Alamance", "Alexander", "Alleghany", "Ashe", "Caldwell", "Caswell",
   "Davidson", "Davie", "Forsyth", "Guilford", "Iredell", "Randolph",
   "Rockingham", "Stokes", "Surry", "Watauga", "Wilkes", "Yadkin"]

/-- tracts_filtered of app.py line 139: keep the tracts whose normalized
county label is in the allow list. -/
def tractsFiltered (geo : List GeoRow) (allow : List String) : List CleanGeoRow :=
  (cleanTracts geo).filter (fun g => allow.contains g.county_clean)

/-! The county merge of app.py lines 82-84 and the geometry join of lines
142-150.  Pandas left merges produce one output row per matching pair of
rows, and keep the left row with a missing right side when nothing matches;
both behaviours are modelled literally. -/

/-- A filtered score row after the county merge: the score record paired with
the County column, which is missing (none) when the GeoID-RUCA lookup has no
row for the tract. -/
structure FRow where
  record : ScoreRecord
  county : Option String
  deriving DecidableEq

/-- Left merge of filtered_df with the GeoID-to-county lookup (app.py lines
82-84): every filtered row is paired with each matching lookup row, or kept
with a missing county when there is none. -/
def mergeCounty (f : List ScoreRecord) (geoMap : List (String × String)) : List FRow :=
  f.flatMap (fun r =>
    match geoMap.filter (fun kv => kv.1 == r.geoid) with
    | [] => [{ record := r, county := none }]
    | m :: ms => (m :: ms).map (fun kv => { record := r, county := some kv.2 }))

/-- Round a rational half-to-even to the nearest integer, as numpy rounding
does.  Computed on the numerator and denominator so the kernel can evaluate
it: f is the floor, rem/den the fractional part. -/
def roundHalfEven (q : ℚ) : ℤ :=
  let f := Int.fdiv q.num q.den
  let rem := q.num - f * q.den
  if 2 * rem < (q.den : ℤ) then f
  else if (q.den : ℤ) < 2 * rem then f + 1
  else if f % 2 = 0 then f else f + 1

/-- pandas Series.round(2): scale by 100 (expressed on the num/den
representation, so divInt (num*100) den is exactly q*100), round half-even,
and divide back by 100. -/
def round2 (q : ℚ) : ℚ := mkRat (roundHalfEven (Rat.divInt (q.num * 100) q.den)) 100

/-- Modelled from the spec: rounding "to a fixed decimal precision (3
significant decimal places)" as the specification describes the presentation
step; the source has no 3-decimal rounding, so this definition exists only to
compare the spec's wording with the code's round(2). -/
def specRound3 (q : ℚ) : ℚ := mkRat (roundHalfEven (Rat.divInt (q.num * 1000) q.den)) 1000

/-- One row of plot_df (app.py lines 142-150): the tract geometry columns
plus the merged Access_Score, County and Top_Agencies columns after the
fill-in step. -/
structure JoinedRegion where
  geoid : String
  county_clean : String
  polygon : List (ℚ × ℚ)
  access_score : ℚ
  county : String
  top_agencies : String
  deriving DecidableEq

/-- The geometry join of app.py lines 142-150: left merge of tracts_filtered
with the filtered scores on GEOID, then Access_Score filled with 0.0 and
rounded to 2 decimals, County filled from County_clean, and Top_Agencies
filled with the literal "[]". -/
def joinRegions (fc : List FRow) (geo : List GeoRow) (allow : List String) :
    List JoinedRegion :=
  (tractsFiltered geo allow).flatMap (fun g =>
    match fc.filter (fun fr => fr.record.geoid == g.geoid) with
    | [] =>
      [{ geoid := g.geoid, county_clean := g.county_clean, polygon := g.polygon,
         access_score := round2 0, county := g.county_clean, top_agencies := "[]" }]
    | m :: ms => (m :: ms).map (fun fr =>
      { geoid := g.geoid, county_clean := g.county_clean, polygon := g.polygon,
        access_score := round2 fr.record.access_score,
        county := fr.county.getD g.county_clean,
        top_agencies := fr.record.top_agencies }))

/-! The color scale of app.py lines 164-174. -/

/-- pandas Series.max: none on an empty column (pandas yields NaN there,
which the source's guard treats as non-finite), otherwise the maximum. -/
def seriesMax : List ℚ → Option ℚ
  | [] => none
  | x :: xs => some (xs.foldl max x)

/-- The linear color scale bounds handed to folium.LinearColormap. -/
structure Scale where
  vmin : ℚ
  vmax : ℚ
  deriving DecidableEq

/-- app.py lines 165-167: vmin is 0 and vmax the maximum score; when the
maximum is unavailable (empty column, modelling the non-finite NaN case) or
at most vmin, vmax is reset to vmin + 1.0. -/
def buildScale (scores : List ℚ) : Scale :=
  let vmin : ℚ := 0
  match seriesMax scores with
  | none => { vmin := vmin, vmax := vmin + 1 }
  | some m => if m ≤ vmin then { vmin := vmin, vmax := vmin + 1 } else { vmin := vmin, vmax := m }

/-! The ranking tables of app.py lines 239-257. -/

/-- One displayed row of the Top 10 / Bottom 10 tables: GEOID, the County
column from the county merge, and the displayed (rounded) score. -/
structure RankRow where
  geoid : String
  county : Option String
  score : ℚ
  deriving DecidableEq

/-- Stable descending insertion by raw access score: an incoming row goes
after existing rows with the same score, matching nlargest keep="first". -/
def insertDesc (r : FRow) : List FRow → List FRow
  | [] => [r]
  | x :: xs => if x.record.access_score < r.record.access_score then r :: x :: xs
               else x :: insertDesc r xs

/-- Stable descending sort by raw access score. -/
def sortDesc (l : List FRow) : List FRow := l.foldr insertDesc []

/-- Stable ascending insertion by raw access score (nsmallest). -/
def insertAsc (r : FRow) : List FRow → List FRow
  | [] => [r]
  | x :: xs => if r.record.access_score < x.record.access_score then r :: x :: xs
               else x :: insertAsc r xs

/-- Stable ascending sort by raw access score. -/
def sortAsc (l : List FRow) : List FRow := l.foldr insertAsc []

/-- top10 of app.py lines 241-246: the ten largest rows by raw Access_Score
(ties keeping earlier rows first), then only the displayed copy of the score
is rounded to 2 decimals. -/
def topTen (fc : List FRow) : List RankRow :=
  ((sortDesc fc).take 10).map (fun fr =>
    { geoid := fr.record.geoid, county := fr.county,
      score := round2 fr.record.access_score })

/-- bottom10 of app.py lines 251-256. -/
def bottomTen (fc : List FRow) : List RankRow :=
  ((sortAsc fc).take 10).map (fun fr =>
    { geoid := fr.record.geoid, county := fr.county,
      score := round2 fr.record.access_score })

/-- Everything the rendering layer receives for one successful query: the
joined plot table, the color scale, and the two ranking tables. -/
structure QueryResult where
  plot : List JoinedRegion
  scale : Scale
  top10 : List RankRow
  bottom10 : List RankRow
  deriving DecidableEq

/-- The per-query pipeline of app.py lines 56-257: filter, stop with the
explicit empty state when nothing matched (st.warning + st.stop, lines
75-77), otherwise merge counties, join geometry against the hard-coded
county allow list, build the color scale from the plotted (rounded) scores,
and produce the ranking tables. -/
def runQuery (pre : List ScoreRecord) (geoMap : List (String × String))
    (geo : List GeoRow) (sel : QuerySelection) : Option QueryResult :=
  let f := filterRecords pre sel
  if f.isEmpty then none
  else
    let fc := mergeCounty f geoMap
    let plot := joinRegions fc geo targetCounties
    some { plot := plot,
           scale := buildScale (plot.map (fun jr => jr.access_score)),
           top10 := topTen fc,
           bottom10 := bottomTen fc }

/-- The clicked-row lookup of app.py line 213 and following: the subframe of
plot_df rows whose GEOID equals the clicked one, from which row.iloc[0]
takes the first row in document order (none when the subframe is empty). -/
def selectRow (plot : List JoinedRegion) (id : String) : Option JoinedRegion :=
  match plot.filter (fun r => r.geoid == id) with
  | [] => none
  | r :: _ => some r

/-! A model of json.loads as used on the Top_Agencies payload (app.py line
216).  The grammar covered is null, true, false, numbers with an optional
sign and fraction part (no exponents), strings with the simple escape
sequences, arrays and objects; this covers every payload shape the
application stores while rejecting malformed text, which is all the source's
try/except distinguishes.  The parsers take explicit fuel so that they are
structurally recursive and kernel-computable. -/

/-- A parsed JSON value. -/
inductive Json where
  | null
  | bool (b : Bool)
  | num (q : ℚ)
  | str (s : String)
  | arr (xs : List Json)
  | obj (kvs : List (String × Json))

/-- The opening brace character, written by code point to keep brace
characters out of string literals. -/
def lbraceChar : Char := Char.ofNat 123

/-- The closing brace character. -/
def rbraceChar : Char := Char.ofNat 125

/-- Skip JSON insignificant whitespace. -/
def skipWs : List Char → List Char
  | [] => []
  | c :: cs => if c.isWhitespace then skipWs cs else c :: cs

/-- Expect the given literal characters at the head of the input; return the
rest on success. -/
def expectChars : List Char → List Char → Option (List Char)
  | [], rest => some rest
  | _ :: _, [] => none
  | e :: es, c :: cs => if c = e then expectChars es cs else none

/-- Read the body of a JSON string after the opening quote; returns the
decoded characters and the input after the closing quote. -/
def pString (fuel : Nat) (cs : List Char) : Option (List Char × List Char) :=
  match fuel, cs with
  | 0, _ => none
  | _, [] => none
  | fuel + 1, c :: cs =>
    if c = '\"' then some ([], cs)
    else if c = '\\' then
      match cs with
      | [] => none
      | e :: cs' =>
        let dec : Option Char :=
          if e = '\"' then some '\"'
          else if e = '\\' then some '\\'
          else if e = '/' then some '/'
          else if e = 'n' then some '\n'
          else if e = 't' then some '\t'
          else if e = 'r' then some '\r'
          else if e = 'b' then some (Char.ofNat 8)
          else if e = 'f' then some (Char.ofNat 12)
          else none
        match dec with
        | none => none
        | some d => (pString fuel cs').map (fun p => (d :: p.1, p.2))
    else (pString fuel cs).map (fun p => (c :: p.1, p.2))

/-- Consume a run of decimal digits, accumulating their value and count. -/
def pDigits (fuel : Nat) (acc : ℤ) (count : Nat) (cs : List Char) :
    ℤ × Nat × List Char :=
  match fuel, cs with
  | 0, _ => (acc, count, cs)
  | _, [] => (acc, count, [])
  | fuel + 1, c :: cs' =>
    if c.isDigit then pDigits fuel (10 * acc + (c.toNat - 48)) (count + 1) cs'
    else (acc, count, c :: cs')

/-- Parse a JSON number (optional minus sign, integer part, optional
fraction part; exponents are not in the stored payload grammar). -/
def pNumber (fuel : Nat) (cs : List Char) : Option (ℚ × List Char) :=
  let (sign, cs₁) : ℤ × List Char :=
    match cs with
    | c :: cs' => if c = '-' then (-1, cs') else (1, cs)
    | [] => (1, [])
  let (ip, ic, cs₂) := pDigits fuel 0 0 cs₁
  if ic = 0 then none
  else
    match cs₂ with
    | c :: cs₃ =>
      if c = '.' then
        let (fp, fc, cs₄) := pDigits fuel 0 0 cs₃
        if fc = 0 then none
        else some (Rat.divInt (sign * (ip * (10 : ℤ) ^ fc + fp)) ((10 : ℤ) ^ fc), cs₄)
      else some (Rat.divInt (sign * ip) 1, c :: cs₃)
    | [] => some (Rat.divInt (sign * ip) 1, [])

mutual

/-- Parse one JSON value. -/
def pValue (fuel : Nat) (cs : List Char) : Option (Json × List Char) :=
  match fuel with
  | 0 => none
  | fuel + 1 =>
    match skipWs cs with
    | [] => none
    | c :: rest =>
      if c = 'n' then (expectChars "ull".data rest).map (fun r => (Json.null, r))
      else if c = 't' then (expectChars "rue".data rest).map (fun r => (Json.bool true, r))
      else if c = 'f' then (expectChars "alse".data rest).map (fun r => (Json.bool false, r))
      else if c = '\"' then
        (pString fuel rest).map (fun p => (Json.str (String.mk p.1), p.2))
      else if c = '[' then
        match skipWs rest with
        | c' :: rest' =>
          if c' = ']' then some (Json.arr [], rest')
          else (pElems fuel (c' :: rest')).map (fun p => (Json.arr p.1, p.2))
        | [] => none
      else if c = lbraceChar then
        match skipWs rest with
        | c' :: rest' =>
          if c' = rbraceChar then some (Json.obj [], rest')
          else (pMembers fuel (c' :: rest')).map (fun p => (Json.obj p.1, p.2))
        | [] => none
      else if c = '-' ∨ c.isDigit then
        (pNumber (fuel + 1) (c :: rest)).map (fun p => (Json.num p.1, p.2))
      else none

/-- Parse the comma-separated elements of a non-empty array, consuming the
closing bracket. -/
def pElems (fuel : Nat) (cs : List Char) : Option (List Json × List Char) :=
  match fuel with
  | 0 => none
  | fuel + 1 =>
    match pValue fuel cs with
    | none => none
    | some (v, rest) =>
      match skipWs rest with
      | ',' :: rest' => (pElems fuel rest').map (fun p => (v :: p.1, p.2))
      | ']' :: rest' => some ([v], rest')
      | _ => none

/-- Parse the members of a non-empty object, consuming the closing brace. -/
def pMembers (fuel : Nat) (cs : List Char) :
    Option (List (String × Json) × List Char) :=
  match fuel with
  | 0 => none
  | fuel + 1 =>
    match skipWs cs with
    | '\"' :: rest =>
      match pString fuel rest with
      | none => none
      | some (key, rest₁) =>
        match skipWs rest₁ with
        | ':' :: rest₂ =>
          match pValue fuel rest₂ with
          | none => none
          | some (v, rest₃) =>
            match skipWs rest₃ with
            | [] => none
            | c :: rest₄ =>
              if c = ',' then
                (pMembers fuel rest₄).map (fun p => ((String.mk key, v) :: p.1, p.2))
              else if c = rbraceChar then some ([(String.mk key, v)], rest₄)
              else none
        | _ => none
    | _ => none

end

/-- json.loads: parse one value and require only whitespace after it. -/
def jsonLoads (s : String) : Option Json :=
  match pValue (2 * s.length + 4) s.data with
  | some (v, rest) => if (skipWs rest).isEmpty then some v else none
  | none => none

/-! The clicked-tract agency view of app.py lines 205-227. -/

/-- Python truthiness of a parsed JSON value, as tested by "if agencies:". -/
def truthy : Json → Bool
  | Json.null => false
  | Json.bool b => b
  | Json.num q => decide (q ≠ 0)
  | Json.str s => !s.isEmpty
  | Json.arr xs => !xs.isEmpty
  | Json.obj kvs => !kvs.isEmpty

/-- Look a key up in a parsed JSON object. -/
def getKey (kvs : List (String × Json)) (k : String) : Option Json :=
  (kvs.find? (fun kv => kv.1 == k)).map (fun kv => kv.2)

/-- The Agency_Contribution cell of one parsed agency row, when the row is an
object carrying a numeric value under that key. -/
def contributionOf : Json → Option ℚ
  | Json.obj kvs =>
    match getKey kvs "Agency_Contribution" with
    | some (Json.num q) => some q
    | _ => none
  | _ => none

/-- The three terminal states of the agency panel: the st.error branch of the
try/except (parse or table construction failed), the "No agencies found"
branch (parsed but falsy), and the displayed table with its rounded
contribution column. -/
inductive AgencyOutcome where
  | parseError
  | noAgencies
  | table (rows : List Json) (contributions : List ℚ)

/-- app.py lines 215-227 for one Top_Agencies payload: json.loads the raw
text (any parse failure reaches the except branch), treat a falsy result as
the "No agencies found" state, and otherwise build the agency table, whose
Agency_Contribution column is rounded to 2 decimals for display.  The
NaN-free rational model maps a table whose rows do not all carry a numeric
Agency_Contribution to the error state, standing in for the exceptions
pandas raises on those shapes. -/
def agencyOutcome (s : String) : AgencyOutcome :=
  match jsonLoads s with
  | none => AgencyOutcome.parseError
  | some j =>
    if truthy j then
      match j with
      | Json.arr xs =>
        match xs.mapM contributionOf with
        | some qs => AgencyOutcome.table xs (qs.map round2)
        | none => AgencyOutcome.parseError
      | _ => AgencyOutcome.parseError
    else AgencyOutcome.noAgencies

/-- The agency sequence surfaced by an outcome: empty except for a displayed
table. -/
def agenciesOf : AgencyOutcome → List Json
  | AgencyOutcome.table xs _ => xs
  | _ => []

/-- Whether the outcome is the non-fatal parse-failed signal (the st.error
branch). -/
def parseFailed : AgencyOutcome → Bool
  | AgencyOutcome.parseError => true
  | _ => false

/-- The whole click path: first plot_df row with the clicked GEOID, then its
Top_Agencies payload parsed and displayed; none when no row matches. -/
def clickDetail (plot : List JoinedRegion) (id : String) : Option AgencyOutcome :=
  (selectRow plot id).map (fun r => agencyOutcome r.top_agencies)

/-! RegionResolver.  Modelled from the spec: src/app.py delegates
click-to-region resolution to the folium map widget (lines 207-213 only read
the clicked feature's GEOID back), so the containment-then-nearest-centroid
algorithm of spec section 4.3 is not in src/ and is modelled here from the
spec's words: containment first with the first containing region under
ascending region_id, then nearest polygon centroid by squared Euclidean
distance with ties broken by ascending region_id. -/

/-- Modelled from the spec: a joined region as the missing resolver sees
it, an identifier with its polygon ring. -/
structure ResolverRegion where
  region_id : String
  polygon : List (ℚ × ℚ)
  deriving DecidableEq

/-- Modelled from the spec: squared Euclidean distance between two points
in the shared lon/lat reference (spec section 4.3 step 3). -/
def sqDist (a b : ℚ × ℚ) : ℚ := (a.1 - b.1) ^ 2 + (a.2 - b.2) ^ 2

/-- Modelled from the spec: the edges of a polygon ring, consecutive
vertex pairs closing back to the first vertex. -/
def polyEdges (poly : List (ℚ × ℚ)) : List ((ℚ × ℚ) × (ℚ × ℚ)) :=
  match poly with
  | [] => []
  | p :: _ => poly.zip (poly.drop 1 ++ [p])

/-- Modelled from the spec: whether the edge crosses the horizontal ray going right from p, in the
multiplicative form of the even-odd rule (the division by y2 - y1 is cleared
against its sign).  Points exactly on an edge follow this half-open
convention; the spec leaves the boundary choice to the implementation. -/
def crossesRay (p : ℚ × ℚ) (e : (ℚ × ℚ) × (ℚ × ℚ)) : Bool :=
  let x1 := e.1.1; let y1 := e.1.2; let x2 := e.2.1; let y2 := e.2.2
  let lhs := (p.1 - x1) * (y2 - y1)
  let rhs := (p.2 - y1) * (x2 - x1)
  if y1 ≤ p.2 ∧ p.2 < y2 then decide (lhs < rhs)
  else if y2 ≤ p.2 ∧ p.2 < y1 then decide (rhs < lhs)
  else false

/-- Modelled from the spec: the even-odd point-in-polygon containment test
(the geometric predicate of spec section 4.3 step 1, absent from src/). -/
def containsPoint (poly : List (ℚ × ℚ)) (p : ℚ × ℚ) : Bool :=
  (polyEdges poly).foldl (fun acc e => if crossesRay p e then !acc else acc) false

/-- Modelled from the spec: twice the signed shoelace area of the ring. -/
def shoelace2 (poly : List (ℚ × ℚ)) : ℚ :=
  ((polyEdges poly).map (fun e => e.1.1 * e.2.2 - e.2.1 * e.1.2)).sum

/-- Modelled from the spec: the polygon centroid by the standard shoelace formula; a ring of zero
signed area (degenerate, which the spec assumes away) falls back to the
vertex average so the definition stays total. -/
def centroid (poly : List (ℚ × ℚ)) : ℚ × ℚ :=
  let a2 := shoelace2 poly
  if a2 = 0 then
    (((poly.map Prod.fst).sum) / (poly.length : ℚ),
     ((poly.map Prod.snd).sum) / (poly.length : ℚ))
  else
    ((((polyEdges poly).map
        (fun e => (e.1.1 + e.2.1) * (e.1.1 * e.2.2 - e.2.1 * e.1.2))).sum) / (3 * a2),
     (((polyEdges poly).map
        (fun e => (e.1.2 + e.2.2) * (e.1.1 * e.2.2 - e.2.1 * e.1.2))).sum) / (3 * a2))

/-- Fold a candidate list down to the element no other element strictly beats
under lt; on ties the earlier candidate is kept, so the outcome is
deterministic. -/
def argminBy {α : Type} (lt : α → α → Bool) : α → List α → α
  | best, [] => best
  | best, x :: xs => argminBy lt (if lt x best then x else best) xs

/-- Modelled from the spec: ascending region_id order between resolver
regions. -/
def idLtR (a b : ResolverRegion) : Bool := strLt a.region_id b.region_id

/-- Modelled from the spec: the nearest-centroid order, strictly smaller squared distance to the
query point first, ties broken by ascending region_id. -/
def centroidKeyLt (p : ℚ × ℚ) (a b : ResolverRegion) : Bool :=
  let da := sqDist (centroid a.polygon) p
  let db := sqDist (centroid b.polygon) p
  decide (da < db) || (decide (da = db) && strLt a.region_id b.region_id)

/-- Modelled from the spec: RegionResolver.resolve (spec section 4.3).  The
regions containing the point are computed first; if any exist the first
under ascending region_id is chosen, otherwise the region whose centroid is
nearest to the point (squared Euclidean distance, ties by ascending
region_id).  An empty region list is the caller's precondition violation and
yields none. -/
def resolve (regions : List ResolverRegion) (p : ℚ × ℚ) : Option String :=
  match regions.filter (fun r => containsPoint r.polygon p) with
  | c :: cs => some ((argminBy idLtR c cs).region_id)
  | [] =>
    match regions with
    | [] => none
    | r :: rs => some ((argminBy (centroidKeyLt p) r rs).region_id)

/-! Concrete demonstration data used by the witnesses and counterexamples.
All rational constants are written with mkRat / integer literals so every
value kernel-evaluates. -/

/-- An after-hours selection (thresholds 10/20 minutes, week 1, Monday; the
hour slider value is ignored in this mode). -/
def demoSelAfter : QuerySelection :=
  { urban_threshold := 10, rural_threshold := 20, week := 1, day := "Mon",
    hour := 9, after_hours := true }

/-- The matching exact-hour selection for hour 9. -/
def demoSelExact : QuerySelection :=
  { urban_threshold := 10, rural_threshold := 20, week := 1, day := "Mon",
    hour := 9, after_hours := false }

/-- A store holding two after-hours records (hours 17 and 18) for the same
tract G1: legal under the store invariant, since the uniqueness key includes
the hour. -/
def demoPreTwoHours : List ScoreRecord :=
  [{ geoid := "G1", urban_threshold := 10, rural_threshold := 20, week := 1,
     day := "Mon", hour := 17, access_score := 1, top_agencies := "[]" },
   { geoid := "G1", urban_threshold := 10, rural_threshold := 20, week := 1,
     day := "Mon", hour := 18, access_score := 2, top_agencies := "[]" }]

/-- County lookup for tract G1. -/
def demoGeoMapG1 : List (String × String) := [("G1", "Forsyth")]

/-- One geometry row for tract G1, in an allow-listed county. -/
def demoGeoG1 : List GeoRow :=
  [{ geoid := "G1", namelsadco := "Forsyth County",
     polygon := [(0, 0), (1, 0), (1, 1), (0, 1)] }]

/-- The county-merged after-hours filter result on the two-hour store. -/
def demoFcTwoHours : List FRow :=
  mergeCounty (filterRecords demoPreTwoHours demoSelAfter) demoGeoMapG1

/-- A two-tract store: G1 with a well-formed empty agency payload and G2
with a malformed one, both matching the exact-hour selection. -/
def demoPreAgency : List ScoreRecord :=
  [{ geoid := "G1", urban_threshold := 10, rural_threshold := 20, week := 1,
     day := "Mon", hour := 9, access_score := 1, top_agencies := "[]" },
   { geoid := "G2", urban_threshold := 10, rural_threshold := 20, week := 1,
     day := "Mon", hour := 9, access_score := 2,
     top_agencies := "\x7bnot json" }]

/-- County lookup for tracts G1 and G2. -/
def demoGeoMapG12 : List (String × String) := [("G1", "Forsyth"), ("G2", "Davie")]

/-- Geometry for tracts G1 and G2, both in allow-listed counties. -/
def demoGeoG12 : List GeoRow :=
  [{ geoid := "G1", namelsadco := "Forsyth County",
     polygon := [(0, 0), (1, 0), (1, 1), (0, 1)] },
   { geoid := "G2", namelsadco := "Davie County",
     polygon := [(2, 0), (3, 0), (3, 1), (2, 1)] }]

/-- The county-merged exact-hour filter result on the agency store. -/
def demoFcAgency : List FRow :=
  mergeCounty (filterRecords demoPreAgency demoSelExact) demoGeoMapG12

/-- A store whose only record is at hour 9 on Monday, so a Tuesday selection
matches nothing. -/
def demoPreMonday : List ScoreRecord :=
  [{ geoid := "G1", urban_threshold := 10, rural_threshold := 20, week := 1,
     day := "Mon", hour := 9, access_score := 1, top_agencies := "[]" }]

/-- A selection for Tuesday against the Monday-only store. -/
def demoSelTuesday : QuerySelection :=
  { urban_threshold := 10, rural_threshold := 20, week := 1, day := "Tue",
    hour := 9, after_hours := false }

/-- A two-tract store where the highest-scoring tract G1 sits in Wake
county, which the hard-coded allow list excludes from the map. -/
def demoPreWake : List ScoreRecord :=
  [{ geoid := "G1", urban_threshold := 10, rural_threshold := 20, week := 1,
     day := "Mon", hour := 9, access_score := 5, top_agencies := "[]" },
   { geoid := "G2", urban_threshold := 10, rural_threshold := 20, week := 1,
     day := "Mon", hour := 9, access_score := 3, top_agencies := "[]" }]

/-- County lookup for the Wake/Davie store. -/
def demoGeoMapWake : List (String × String) := [("G1", "Wake"), ("G2", "Davie")]

/-- Geometry placing G1 in Wake county (not allow-listed) and G2 in Davie
county (allow-listed). -/
def demoGeoWake : List GeoRow :=
  [{ geoid := "G1", namelsadco := "Wake County",
     polygon := [(0, 0), (1, 0), (1, 1), (0, 1)] },
   { geoid := "G2", namelsadco := "Davie County",
     polygon := [(2, 0), (3, 0), (3, 1), (2, 1)] }]

/-- A store whose single record carries the score 1/8 = 0.125, whose decimal
expansion needs three places, and an agency contribution of the same
value. -/
def demoPreEighth : List ScoreRecord :=
  [{ geoid := "G1", urban_threshold := 10, rural_threshold := 20, week := 1,
     day := "Mon", hour := 9, access_score := mkRat 1 8,
     top_agencies := "[\x7b\"Agency\": \"A\", \"Agency_Contribution\": 0.125\x7d]" }]

/-- The county-merged filter result on the 1/8 store. -/
def demoFcEighth : List FRow :=
  mergeCounty (filterRecords demoPreEighth demoSelExact) demoGeoMapG1

/-- Two disjoint unit-square regions for the resolver: A at the origin and B
two units to its right. -/
def demoRegions : List ResolverRegion :=
  [{ region_id := "A", polygon := [(0, 0), (1, 0), (1, 1), (0, 1)] },
   { region_id := "B", polygon := [(2, 0), (3, 0), (3, 1), (2, 1)] }]

/-- The joined plot row the exact-hour agency demo produces for tract G1. -/
def demoRowG1 : JoinedRegion :=
  { geoid := "G1", county_clean := "Forsyth",
    polygon := [(0, 0), (1, 0), (1, 1), (0, 1)],
    access_score := round2 1, county := "Forsyth", top_agencies := "[]" }

/-- A second plot row with the same GEOID but a different agency payload,
used to show that rows after the first are ignored by the click lookup. -/
def demoRowG1b : JoinedRegion :=
  { geoid := "G1", county_clean := "Forsyth",
    polygon := [(0, 0), (1, 0), (1, 1), (0, 1)],
    access_score := round2 2, county := "Forsyth", top_agencies := "[1]" }

/-- The displayed ranking row for the 1/8-score demo tract. -/
def demoRankEighth : RankRow :=
  { geoid := "G1", county := some "Forsyth", score := round2 (mkRat 1 8) }

/-- The displayed ranking row for the Wake-county demo tract. -/
def demoRankWake : RankRow :=
  { geoid := "G1", county := some "Wake", score := round2 5 }

/-! Helper lemmas. -/

/-- A flatMap whose pieces are singletons preserves length. -/
theorem length_flatMap_ones {α β : Type} (l : List α) (f : α → List β)
    (h : ∀ a ∈ l, (f a).length = 1) : (l.flatMap f).length = l.length := by
  induction l with
  | nil => rfl
  | cons x xs ih =>
    simp only [List.flatMap_cons, List.length_append, List.length_cons]
    rw [h x (List.mem_cons_self x xs), ih (fun a ha => h a (List.mem_cons_of_mem x ha))]
    omega

/-- Every element of the input is bounded by a foldl of max over it. -/
theorem le_foldl_max (x : ℚ) (xs : List ℚ) : ∀ y ∈ x :: xs, y ≤ xs.foldl max x := by
  induction xs generalizing x with
  | nil => intro y hy; rw [List.mem_singleton] at hy; exact le_of_eq hy
  | cons z zs ih =>
    intro y hy
    simp only [List.foldl_cons]
    rcases List.mem_cons.mp hy with h | h
    · rw [h]
      exact le_trans (le_max_left x z) (ih (max x z) (max x z) (List.mem_cons_self _ _))
    · rcases List.mem_cons.mp h with h' | h'
      · rw [h']
        exact le_trans (le_max_right x z) (ih (max x z) (max x z) (List.mem_cons_self _ _))
      · exact ih (max x z) y (List.mem_cons_of_mem _ h')

/-- Claim C1: the filter stage returns exactly the records matching the
selection's thresholds, week and day, with the hour either at least 17
(after-hours mode) or equal to the selected hour (exact mode), depending on
the boolean flag: soundness and completeness of filtered_df. -/
theorem C1_filter_sound_complete (pre : List ScoreRecord) (sel : QuerySelection)
    (r : ScoreRecord) :
    r ∈ filterRecords pre sel ↔
      r ∈ pre ∧ r.urban_threshold = sel.urban_threshold ∧
      r.rural_threshold = sel.rural_threshold ∧ r.week = sel.week ∧
      r.day = sel.day ∧
      (if sel.after_hours then 17 ≤ r.hour else r.hour = sel.hour) := by
  unfold filterRecords
  by_cases h : sel.after_hours <;>
    simp [h, List.mem_filter, and_assoc]

/-- Claim C2 (counterexample): in after-hours mode a tract with score
records at two matching hours appears twice in plot_df, so the joined region
count (2) exceeds the post-allow-list geometry region count (1), refuting
"at most once ... regardless of how many score records matched". -/
theorem C2_join_counterexample :
    (joinRegions demoFcTwoHours demoGeoG1 targetCounties).length = 2 ∧
    (tractsFiltered demoGeoG1 targetCounties).length = 1 ∧
    ((joinRegions demoFcTwoHours demoGeoG1 targetCounties).filter
      (fun jr => jr.geoid == "G1")).length = 2 := by
  exact ⟨rfl, rfl, rfl⟩

/-- Claim C2 (amended): when each in-scope region matches at most one
filtered record (as in exact-hour mode, by the store's uniqueness
invariant), the join output has exactly one row per post-allow-list geometry
region; unconditionally, a region with no matching filtered record is not
dropped but appears with Access_Score round2 0 (which is 0.0) and its
County falling back to the geometry-side County_clean label. -/
theorem C2_join_amended (fc : List FRow) (geo : List GeoRow) (allow : List String)
    (huniq : ∀ g ∈ tractsFiltered geo allow,
      (fc.filter (fun fr => fr.record.geoid == g.geoid)).length ≤ 1) :
    (joinRegions fc geo allow).length = (tractsFiltered geo allow).length ∧
    (∀ g ∈ tractsFiltered geo allow,
      fc.filter (fun fr => fr.record.geoid == g.geoid) = [] →
      ({ geoid := g.geoid, county_clean := g.county_clean, polygon := g.polygon,
         access_score := round2 0, county := g.county_clean,
         top_agencies := "[]" } : JoinedRegion) ∈ joinRegions fc geo allow) ∧
    round2 0 = 0 := by
  refine ⟨?_, ?_, rfl⟩
  · unfold joinRegions
    apply length_flatMap_ones
    intro g hg
    rcases hfl : fc.filter (fun fr => fr.record.geoid == g.geoid) with _ | ⟨m, ms⟩
    · rw [hfl]
      simp
    · have h1 := huniq g hg
      rw [hfl] at h1
      simp only [List.length_cons] at h1
      have hms : ms = [] := List.length_eq_zero.mp (by omega)
      subst hms
      rw [hfl]
      simp
  · intro g hg hfl
    unfold joinRegions
    rw [List.mem_flatMap]
    refine ⟨g, hg, ?_⟩
    rw [hfl]
    simp

/-- Claim C2 witness: the amended statement applied to the exact-hour demo
query, where each region matches at most one record. -/
theorem C2_join_witness :
    (joinRegions demoFcAgency demoGeoG12 targetCounties).length =
      (tractsFiltered demoGeoG12 targetCounties).length :=
  (C2_join_amended demoFcAgency demoGeoG12 targetCounties (by decide)).1

/-- Claim C4: when the filter result is empty the pipeline yields the
explicit empty outcome none, with no join, scale or ranking output, and
that outcome is distinct from every rendered result (in particular from one
containing zero-score regions). -/
theorem C4_empty_result (pre : List ScoreRecord) (geoMap : List (String × String))
    (geo : List GeoRow) (sel : QuerySelection)
    (h : filterRecords pre sel = []) :
    runQuery pre geoMap geo sel = none ∧
    ∀ res : QueryResult, (none : Option QueryResult) ≠ some res := by
  constructor
  · simp [runQuery, h]
  · intro res hne
    exact Option.noConfusion hne

/-- Claim C4 witness: a Tuesday selection against a Monday-only store halts
with the explicit empty outcome. -/
theorem C4_empty_result_witness :
    runQuery demoPreMonday demoGeoMapG1 demoGeoG1 demoSelTuesday = none :=
  (C4_empty_result demoPreMonday demoGeoMapG1 demoGeoG1 demoSelTuesday rfl).1

/-- Claim C5: building the color scale is total; vmin is 0, vmax bounds
every input score, vmax equals the maximum score when that maximum is
positive, and the degenerate cases (missing maximum, i.e. the empty column
pandas turns into NaN, or a maximum at most vmin) deterministically reset
vmax to vmin + 1.0 = 1, so the scale always satisfies vmin < vmax. -/
theorem C5_scale (scores : List ℚ) :
    (buildScale scores).vmin = 0 ∧
    (buildScale scores).vmin < (buildScale scores).vmax ∧
    (∀ x ∈ scores, x ≤ (buildScale scores).vmax) ∧
    (∀ m, seriesMax scores = some m → 0 < m → (buildScale scores).vmax = m) ∧
    (seriesMax scores = none → (buildScale scores).vmax = 1) ∧
    (∀ m, seriesMax scores = some m → m ≤ 0 → (buildScale scores).vmax = 1) := by
  rcases scores with _ | ⟨x, xs⟩
  · refine ⟨rfl, by norm_num [buildScale, seriesMax], ?_, ?_, ?_, ?_⟩
    · intro y hy
      exact absurd hy (List.not_mem_nil y)
    · intro m hm
      exact Option.noConfusion hm
    · intro _
      norm_num [buildScale, seriesMax]
    · intro m hm
      exact Option.noConfusion hm
  · have hmax : seriesMax (x :: xs) = some (xs.foldl max x) := rfl
    have hbound := le_foldl_max x xs
    by_cases hle : xs.foldl max x ≤ 0
    · have hb : buildScale (x :: xs) = { vmin := 0, vmax := 0 + 1 } := by
        simp [buildScale, hmax, hle]
      refine ⟨by rw [hb], by rw [hb]; norm_num, ?_, ?_, ?_, ?_⟩
      · intro y hy
        rw [hb]
        calc y ≤ xs.foldl max x := hbound y hy
        _ ≤ 0 := hle
        _ ≤ 0 + 1 := by norm_num
      · intro m hm hpos
        rw [hmax] at hm
        cases hm
        exact absurd hpos (not_lt.mpr hle)
      · intro hnone
        rw [hmax] at hnone
        exact Option.noConfusion hnone
      · intro m hm hm0
        rw [hb]
        norm_num
    · have hb : buildScale (x :: xs) = { vmin := 0, vmax := xs.foldl max x } := by
        simp [buildScale, hmax, hle]
      refine ⟨by rw [hb], by rw [hb]; exact lt_of_not_le hle, ?_, ?_, ?_, ?_⟩
      · intro y hy
        rw [hb]
        exact hbound y hy
      · intro m hm hpos
        rw [hmax] at hm
        cases hm
        rw [hb]
      · intro hnone
        rw [hmax] at hnone
        exact Option.noConfusion hnone
      · intro m hm hm0
        rw [hmax] at hm
        cases hm
        exact absurd hm0 hle
  
/-- Claim C5 witness: the all-zero and empty score sequences both yield the
non-degenerate scale with vmin 0 and vmax 1. -/
theorem C5_scale_witness :
    (buildScale [0, 0, 0]).vmin = 0 ∧ (buildScale [0, 0, 0]).vmax = 1 ∧
    (buildScale []).vmax = 1 :=
  ⟨(C5_scale [0, 0, 0]).1,
   (C5_scale [0, 0, 0]).2.2.2.2.2 (List.foldl max 0 [0, 0]) rfl (by norm_num),
   (C5_scale []).2.2.2.2.1 rfl⟩

/-- Claim C6: a Top_Agencies payload that json.loads rejects yields the
empty agency sequence together with the non-fatal parse-failed signal; the
raw value "[]" parses to the valid empty state with the flag unset; the
malformed literal sets the flag; and in the two-tract demo query the
malformed payload of G2 leaves the whole query rendered with both regions
present, G2's detail in the parse-failed state and G1's in the valid empty
state. -/
theorem C6_agency (s : String) (h : jsonLoads s = none) :
    (agenciesOf (agencyOutcome s) = [] ∧ parseFailed (agencyOutcome s) = true) ∧
    (agenciesOf (agencyOutcome "[]") = [] ∧
      parseFailed (agencyOutcome "[]") = false) ∧
    (agenciesOf (agencyOutcome "\x7bnot json") = [] ∧
      parseFailed (agencyOutcome "\x7bnot json") = true) ∧
    ((runQuery demoPreAgency demoGeoMapG12 demoGeoG12 demoSelExact).map
      (fun res => res.plot.map (fun jr => jr.geoid)) = some ["G1", "G2"]) ∧
    ((runQuery demoPreAgency demoGeoMapG12 demoGeoG12 demoSelExact).map
      (fun res => clickDetail res.plot "G2") =
        some (some AgencyOutcome.parseError)) ∧
    ((runQuery demoPreAgency demoGeoMapG12 demoGeoG12 demoSelExact).map
      (fun res => clickDetail res.plot "G1") =
        some (some AgencyOutcome.noAgencies)) := by
  refine ⟨?_, ⟨rfl, rfl⟩, ⟨rfl, rfl⟩, rfl, rfl, rfl⟩
  constructor
  · unfold agencyOutcome
    rw [h]
    rfl
  · unfold agencyOutcome
    rw [h]
    rfl

/-- Claim C6 witness: the malformed payload literal discharges the
parse-failure hypothesis concretely. -/
theorem C6_agency_witness :
    agenciesOf (agencyOutcome "\x7bnot json") = [] ∧
    parseFailed (agencyOutcome "\x7bnot json") = true :=
  (C6_agency "\x7bnot json" rfl).1

/-- Claim C7: county labels are normalized (trim, strip a trailing
case-insensitive "county" token, title-case) before comparison with the
allow list; a region whose normalized label is not allow-listed is excluded
from the join entirely (joining over the pre-restricted geometry gives the
same result), and every joined row descends from a geometry row whose
normalized label passed the allow list. -/
theorem C7_allow_list :
    (∀ (fc : List FRow) (geo : List GeoRow) (allow : List String),
      joinRegions fc geo allow =
        joinRegions fc
          (geo.filter (fun g => allow.contains (normalizeCounty g.namelsadco)))
          allow) ∧
    (∀ (fc : List FRow) (geo : List GeoRow) (allow : List String) jr,
      jr ∈ joinRegions fc geo allow →
      ∃ g ∈ geo, jr.county_clean = normalizeCounty g.namelsadco ∧
        allow.contains (normalizeCounty g.namelsadco) = true ∧
        jr.geoid = g.geoid) ∧
    normalizeCounty "  FORSYTH county " = "Forsyth" ∧
    normalizeCounty "Davie" = "Davie" ∧
    normalizeCounty " davidson CoUnTy" = "Davidson" := by
  refine ⟨?_, ?_, rfl, rfl, rfl⟩
  · intro fc geo allow
    have htf : tractsFiltered
        (geo.filter (fun g => allow.contains (normalizeCounty g.namelsadco))) allow =
        tractsFiltered geo allow := by
      unfold tractsFiltered cleanTracts
      rw [List.filter_map, List.filter_map, List.filter_filter]
      apply congrArg
      apply List.filter_congr
      intro a _
      exact Bool.and_self _
    unfold joinRegions
    rw [htf]
  · intro fc geo allow jr hjr
    unfold joinRegions at hjr
    rw [List.mem_flatMap] at hjr
    obtain ⟨g, hg, hpiece⟩ := hjr
    unfold tractsFiltered at hg
    obtain ⟨hgc, hallow⟩ := List.mem_filter.mp hg
    unfold cleanTracts at hgc
    rw [List.mem_map] at hgc
    obtain ⟨g0, hg0, hclean⟩ := hgc
    have hcc : g.county_clean = normalizeCounty g0.namelsadco := by
      rw [← hclean]
    have hgeo : g.geoid = g0.geoid := by
      rw [← hclean]
    have hfields : jr.county_clean = g.county_clean ∧ jr.geoid = g.geoid := by
      rcases hm : fc.filter (fun fr => fr.record.geoid == g.geoid) with _ | ⟨m, ms⟩
      · rw [hm] at hpiece
        rw [List.mem_singleton] at hpiece
        subst hpiece
        exact ⟨rfl, rfl⟩
      · rw [hm] at hpiece
        rw [List.mem_map] at hpiece
        obtain ⟨fr, _, heq⟩ := hpiece
        subst heq
        exact ⟨rfl, rfl⟩
    refine ⟨g0, hg0, hfields.1.trans hcc, ?_, hfields.2.trans hgeo⟩
    rw [← hcc]
    exact hallow

/-- Claim C7 witness: the joined demo row for tract G1 descends from the
Forsyth County geometry row, whose normalized label passes the allow
list. -/
theorem C7_allow_list_witness :
    ∃ g ∈ demoGeoG12, demoRowG1.county_clean = normalizeCounty g.namelsadco ∧
      targetCounties.contains (normalizeCounty g.namelsadco) = true ∧
      demoRowG1.geoid = g.geoid :=
  C7_allow_list.2.1 demoFcAgency demoGeoG12 targetCounties demoRowG1 (by decide)

/-- Membership through a descending insertion. -/
theorem mem_insertDesc (r x : FRow) (l : List FRow) :
    x ∈ insertDesc r l ↔ x = r ∨ x ∈ l := by
  induction l with
  | nil => simp [insertDesc]
  | cons z zs ih =>
    simp only [insertDesc]
    by_cases h : z.record.access_score < r.record.access_score
    · simp only [if_pos h, List.mem_cons]
    · simp only [if_neg h, List.mem_cons, ih]
      tauto

/-- Membership through an ascending insertion. -/
theorem mem_insertAsc (r x : FRow) (l : List FRow) :
    x ∈ insertAsc r l ↔ x = r ∨ x ∈ l := by
  induction l with
  | nil => simp [insertAsc]
  | cons z zs ih =>
    simp only [insertAsc]
    by_cases h : r.record.access_score < z.record.access_score
    · simp only [if_pos h, List.mem_cons]
    · simp only [if_neg h, List.mem_cons, ih]
      tauto

/-- The descending sort permutes membership. -/
theorem mem_sortDesc (x : FRow) (l : List FRow) : x ∈ sortDesc l ↔ x ∈ l := by
  unfold sortDesc
  induction l with
  | nil => simp
  | cons z zs ih => simp [List.foldr_cons, mem_insertDesc, ih]

/-- The ascending sort permutes membership. -/
theorem mem_sortAsc (x : FRow) (l : List FRow) : x ∈ sortAsc l ↔ x ∈ l := by
  unfold sortAsc
  induction l with
  | nil => simp
  | cons z zs ih => simp [List.foldr_cons, mem_insertAsc, ih]

/-- Every displayed top-10 row is the rounded image of a merged filtered
row. -/
theorem topTen_from (fc : List FRow) :
    ∀ row ∈ topTen fc, ∃ fr ∈ fc, row.geoid = fr.record.geoid ∧
      row.score = round2 fr.record.access_score := by
  intro row hrow
  unfold topTen at hrow
  rw [List.mem_map] at hrow
  obtain ⟨fr, hfr, heq⟩ := hrow
  have hfc : fr ∈ fc := (mem_sortDesc fr fc).mp (List.take_subset 10 _ hfr)
  exact ⟨fr, hfc, by rw [← heq], by rw [← heq]⟩

/-- Every displayed bottom-10 row is the rounded image of a merged filtered
row. -/
theorem bottomTen_from (fc : List FRow) :
    ∀ row ∈ bottomTen fc, ∃ fr ∈ fc, row.geoid = fr.record.geoid ∧
      row.score = round2 fr.record.access_score := by
  intro row hrow
  unfold bottomTen at hrow
  rw [List.mem_map] at hrow
  obtain ⟨fr, hfr, heq⟩ := hrow
  have hfc : fr ∈ fc := (mem_sortAsc fr fc).mp (List.take_subset 10 _ hfr)
  exact ⟨fr, hfc, by rw [← heq], by rw [← heq]⟩

/-- Every row of the county merge carries a record of the merge input. -/
theorem mergeCounty_record_mem (f : List ScoreRecord) (gm : List (String × String))
    (fr : FRow) (h : fr ∈ mergeCounty f gm) : fr.record ∈ f := by
  unfold mergeCounty at h
  rw [List.mem_flatMap] at h
  obtain ⟨r, hr, hfr⟩ := h
  rcases hm : gm.filter (fun kv => kv.1 == r.geoid) with _ | ⟨m, ms⟩ <;> rw [hm] at hfr
  · rw [List.mem_singleton] at hfr
    subst hfr
    exact hr
  · rw [List.mem_map] at hfr
    obtain ⟨kv, _, heq⟩ := hfr
    subst heq
    exact hr

/-- The filter stage only ever passes records of the store through,
untouched. -/
theorem filterRecords_subset (pre : List ScoreRecord) (sel : QuerySelection)
    (sc : ScoreRecord) (h : sc ∈ filterRecords pre sel) : sc ∈ pre := by
  unfold filterRecords at h
  by_cases hah : sel.after_hours
  · rw [if_pos hah] at h
    exact (List.mem_filter.mp h).1
  · rw [if_neg hah] at h
    exact (List.mem_filter.mp h).1

/-- Claim C8 (counterexample): the code rounds to 2 decimal places, not 3,
and the joined table stores the rounded score, which the color scale then
consumes.  With the raw score 1/8 = 0.125: a 3-decimal presentation would
show 0.125 unchanged, but the pipeline stores and presents 0.12 = 3/25, and
the scale's vmax is the rounded 3/25 rather than the raw 1/8. -/
theorem C8_round_counterexample :
    round2 (mkRat 1 8) = mkRat 3 25 ∧
    specRound3 (mkRat 1 8) = mkRat 1 8 ∧
    mkRat 3 25 ≠ mkRat 1 8 ∧
    ((runQuery demoPreEighth demoGeoMapG1 demoGeoG1 demoSelExact).map
      (fun res => res.plot.map (fun jr => jr.access_score)) =
        some [mkRat 3 25]) ∧
    ((runQuery demoPreEighth demoGeoMapG1 demoGeoG1 demoSelExact).map
      (fun res => res.scale.vmax) = some (mkRat 3 25)) ∧
    ((runQuery demoPreEighth demoGeoMapG1 demoGeoG1 demoSelExact).map
      (fun res => clickDetail res.plot "G1") =
        some (some (AgencyOutcome.table
          [Json.obj [("Agency", Json.str "A"),
                     ("Agency_Contribution", Json.num (Rat.divInt 125 1000))]]
          [mkRat 3 25]))) := by
  exact ⟨rfl, rfl, by decide, rfl, rfl, rfl⟩

/-- Claim C8 (amended): numeric values are rounded to 2 decimal places
(half-even); the ranking tables pick rows by the raw scores and round only
the displayed copy, and the filter stage passes store records through
unchanged, but the joined table's stored Access_Score is itself the rounded
value (of the matched record's score, or of the 0.0 fill). -/
theorem C8_round_amended (fc : List FRow) (geo : List GeoRow) (allow : List String) :
    (∀ jr ∈ joinRegions fc geo allow,
      jr.access_score = round2 0 ∨
      ∃ fr ∈ fc, fr.record.geoid = jr.geoid ∧
        jr.access_score = round2 fr.record.access_score) ∧
    (∀ row ∈ topTen fc, ∃ fr ∈ fc, row.geoid = fr.record.geoid ∧
      row.score = round2 fr.record.access_score) ∧
    (∀ row ∈ bottomTen fc, ∃ fr ∈ fc, row.geoid = fr.record.geoid ∧
      row.score = round2 fr.record.access_score) ∧
    (∀ (pre : List ScoreRecord) (sel : QuerySelection) (sc : ScoreRecord),
      sc ∈ filterRecords pre sel → sc ∈ pre) := by
  refine ⟨?_, topTen_from fc, bottomTen_from fc, filterRecords_subset⟩
  intro jr hjr
  unfold joinRegions at hjr
  rw [List.mem_flatMap] at hjr
  obtain ⟨g, _, hpiece⟩ := hjr
  rcases hm : fc.filter (fun fr => fr.record.geoid == g.geoid) with _ | ⟨m, ms⟩ <;>
    rw [hm] at hpiece
  · rw [List.mem_singleton] at hpiece
    subst hpiece
    exact Or.inl rfl
  · rw [List.mem_map] at hpiece
    obtain ⟨fr, hfr, heq⟩ := hpiece
    have hmem : fr ∈ fc.filter (fun fr => fr.record.geoid == g.geoid) := by
      rw [hm]
      exact hfr
    obtain ⟨hfc, hbeq⟩ := List.mem_filter.mp hmem
    refine Or.inr ⟨fr, hfc, ?_, ?_⟩
    · subst heq
      exact eq_of_beq hbeq
    · subst heq
      rfl

/-- Claim C8 witness: the amended statement applied to the 1/8-score demo:
the displayed ranking row carries the rounded score of the underlying
record. -/
theorem C8_round_amended_witness :
    ∃ fr ∈ demoFcEighth, demoRankEighth.geoid = fr.record.geoid ∧
      demoRankEighth.score = round2 fr.record.access_score :=
  (C8_round_amended demoFcEighth demoGeoG1 targetCounties).2.1 demoRankEighth (by decide)


/-- selectRow is the head of the matching subframe. -/
theorem selectRow_eq_head (plot : List JoinedRegion) (id : String) :
    selectRow plot id = (plot.filter (fun r => r.geoid == id)).head? := by
  unfold selectRow
  rcases h : plot.filter (fun r => r.geoid == id) with _ | ⟨r, rs⟩ <;> rw [h] <;> rfl

/-- selectRow steps over the first row by its match status. -/
theorem selectRow_cons (x : JoinedRegion) (l : List JoinedRegion) (id : String) :
    selectRow (x :: l) id =
      if x.geoid == id then some x else selectRow l id := by
  rw [selectRow_eq_head, selectRow_eq_head, List.filter_cons]
  cases h : x.geoid == id
  · simp [h]
  · simp [h]

/-- The head of a filtered list is its first match. -/
theorem filter_head_eq_find (p : JoinedRegion → Bool) (l : List JoinedRegion) :
    (l.filter p).head? = l.find? p := by
  induction l with
  | nil => rfl
  | cons x xs ih =>
    cases h : p x
    · simp [List.filter_cons, List.find?_cons, h, ih]
    · simp [List.filter_cons, List.find?_cons, h]

/-- Claim C9: the selection detail is computed from the first plot_df row
whose GEOID equals the clicked identifier (row.iloc[0] in document order):
selectRow is find?, appending later rows changes nothing once a match
exists, a matching head row wins outright, and the detail view parses only
that first row's agency payload. -/
theorem C9_first_row :
    (∀ (plot : List JoinedRegion) (id : String),
      selectRow plot id = plot.find? (fun r => r.geoid == id)) ∧
    (∀ (t1 t2 : List JoinedRegion) (id : String), (∃ r ∈ t1, r.geoid = id) →
      selectRow (t1 ++ t2) id = selectRow t1 id) ∧
    (∀ (r : JoinedRegion) (rest : List JoinedRegion) (id : String),
      r.geoid = id → selectRow (r :: rest) id = some r) ∧
    (∀ (r : JoinedRegion) (rest : List JoinedRegion) (id : String),
      r.geoid = id →
      clickDetail (r :: rest) id = some (agencyOutcome r.top_agencies)) := by
  have h3 : ∀ (r : JoinedRegion) (rest : List JoinedRegion) (id : String),
      r.geoid = id → selectRow (r :: rest) id = some r := by
    intro r rest id h
    rw [selectRow_cons, if_pos (by rw [h]; exact beq_self_eq_true id)]
  refine ⟨?_, ?_, h3, ?_⟩
  · intro plot id
    rw [selectRow_eq_head, filter_head_eq_find]
  · intro t1 t2 id hex
    induction t1 with
    | nil =>
      obtain ⟨r, hr, _⟩ := hex
      exact absurd hr (List.not_mem_nil r)
    | cons x xs ih =>
      rw [List.cons_append, selectRow_cons, selectRow_cons]
      cases hx : x.geoid == id
      · rw [if_neg Bool.false_ne_true, if_neg Bool.false_ne_true]
        apply ih
        obtain ⟨r, hr, hrid⟩ := hex
        rcases List.mem_cons.mp hr with h | h
        · exfalso
          rw [← h] at hx
          rw [hrid] at hx
          simp at hx
        · exact ⟨r, h, hrid⟩
      · rw [if_pos rfl, if_pos rfl]
  · intro r rest id h
    unfold clickDetail
    rw [h3 r rest id h]
    rfl

/-- Claim C9 witness: with two plot rows for G1, the lookup returns exactly
the first; the second row's payload never enters the detail view. -/
theorem C9_first_row_witness :
    selectRow [demoRowG1, demoRowG1b] "G1" = some demoRowG1 :=
  C9_first_row.2.2.1 demoRowG1 [demoRowG1b] "G1" rfl

/-- Claim C10: the top-10 and bottom-10 tables are functions of the merged
filtered records alone (computed before the geometry join, allow-list
restriction and zero-filling): every ranking row descends from a filtered
score record, the pipeline's ranking outputs are exactly those tables, a
region with no filtered record never appears in them, and in the Wake-county
demo the allow-list-excluded top scorer G1 appears in the rankings while
being absent from the map. -/
theorem C10_rankings :
    (∀ (pre : List ScoreRecord) (sel : QuerySelection)
       (gm : List (String × String)) (row : RankRow),
      row ∈ topTen (mergeCounty (filterRecords pre sel) gm) ++
            bottomTen (mergeCounty (filterRecords pre sel) gm) →
      ∃ sc ∈ filterRecords pre sel, row.geoid = sc.geoid) ∧
    (∀ (pre : List ScoreRecord) (gm : List (String × String))
       (geo : List GeoRow) (sel : QuerySelection) (res : QueryResult),
      runQuery pre gm geo sel = some res →
      res.top10 = topTen (mergeCounty (filterRecords pre sel) gm) ∧
      res.bottom10 = bottomTen (mergeCounty (filterRecords pre sel) gm)) ∧
    (∀ (pre : List ScoreRecord) (sel : QuerySelection)
       (gm : List (String × String)) (g : String),
      (∀ sc ∈ filterRecords pre sel, sc.geoid ≠ g) →
      ∀ row ∈ topTen (mergeCounty (filterRecords pre sel) gm) ++
               bottomTen (mergeCounty (filterRecords pre sel) gm),
        row.geoid ≠ g) ∧
    ((runQuery demoPreWake demoGeoMapWake demoGeoWake demoSelExact).map
      (fun res => res.top10.map (fun row => row.geoid)) = some ["G1", "G2"]) ∧
    ((runQuery demoPreWake demoGeoMapWake demoGeoWake demoSelExact).map
      (fun res => res.plot.map (fun jr => jr.geoid)) = some ["G2"]) ∧
    (targetCounties.contains (normalizeCounty "Wake County") = false) := by
  have h1 : ∀ (pre : List ScoreRecord) (sel : QuerySelection)
      (gm : List (String × String)) (row : RankRow),
      row ∈ topTen (mergeCounty (filterRecords pre sel) gm) ++
            bottomTen (mergeCounty (filterRecords pre sel) gm) →
      ∃ sc ∈ filterRecords pre sel, row.geoid = sc.geoid := by
    intro pre sel gm row hrow
    rcases List.mem_append.mp hrow with h | h
    · obtain ⟨fr, hfr, hgeo, _⟩ := topTen_from _ row h
      exact ⟨fr.record, mergeCounty_record_mem _ gm fr hfr, hgeo⟩
    · obtain ⟨fr, hfr, hgeo, _⟩ := bottomTen_from _ row h
      exact ⟨fr.record, mergeCounty_record_mem _ gm fr hfr, hgeo⟩
  refine ⟨h1, ?_, ?_, rfl, rfl, rfl⟩
  · intro pre gm geo sel res h
    unfold runQuery at h
    by_cases he : (filterRecords pre sel).isEmpty
    · rw [if_pos he] at h
      exact Option.noConfusion h
    · rw [if_neg he] at h
      have hinj := Option.some.inj h
      exact ⟨by rw [← hinj], by rw [← hinj]⟩
  · intro pre sel gm g hnone row hrow
    obtain ⟨sc, hsc, hgeo⟩ := h1 pre sel gm row hrow
    rw [hgeo]
    exact hnone sc hsc

/-- Claim C10 witness: the Wake-county record reaches the ranking tables
from the filtered set alone. -/
theorem C10_rankings_witness :
    ∃ sc ∈ filterRecords demoPreWake demoSelExact,
      demoRankWake.geoid = sc.geoid :=
  C10_rankings.1 demoPreWake demoSelExact demoGeoMapWake demoRankWake (by decide)

/-- Head case analysis for the lexicographic comparison, positive form. -/
theorem charListLt_cons (a b : Char) (l m : List Char) :
    charListLt (a :: l) (b :: m) = true ↔
      a < b ∨ (a = b ∧ charListLt l m = true) := by
  simp only [charListLt]
  rcases lt_trichotomy a b with h | h | h
  · rw [if_pos h]
    exact iff_of_true rfl (Or.inl h)
  · subst h
    rw [if_neg (lt_irrefl a), if_neg (lt_irrefl a)]
    simp [lt_irrefl]
  · rw [if_neg (asymm h), if_pos h]
    constructor
    · intro hc
      exact absurd hc Bool.false_ne_true
    · rintro (h' | ⟨h', _⟩)
      · exact absurd h' (asymm h)
      · exact absurd h' (ne_of_gt h)

/-- Head case analysis for the lexicographic comparison, negative form. -/
theorem charListLt_cons_false (a b : Char) (l m : List Char) :
    charListLt (a :: l) (b :: m) = false ↔
      b < a ∨ (a = b ∧ charListLt l m = false) := by
  simp only [charListLt]
  rcases lt_trichotomy a b with h | h | h
  · rw [if_pos h]
    constructor
    · intro hc
      simp at hc
    · rintro (h' | ⟨h', _⟩)
      · exact absurd h' (asymm h)
      · exact absurd h' (ne_of_lt h)
  · subst h
    rw [if_neg (lt_irrefl a), if_neg (lt_irrefl a)]
    simp [lt_irrefl]
  · rw [if_neg (asymm h), if_pos h]
    exact iff_of_true rfl (Or.inl h)

/-- Lexicographic comparison is transitive. -/
theorem charListLt_trans : ∀ (as bs cs : List Char),
    charListLt as bs = true → charListLt bs cs = true →
    charListLt as cs = true := by
  intro as
  induction as with
  | nil =>
    intro bs cs h1 h2
    cases bs with
    | nil => simp [charListLt] at h1
    | cons b m =>
      cases cs with
      | nil => simp [charListLt] at h2
      | cons c n => rfl
  | cons a l ih =>
    intro bs cs h1 h2
    cases bs with
    | nil => simp [charListLt] at h1
    | cons b m =>
      cases cs with
      | nil => simp [charListLt] at h2
      | cons c n =>
        rw [charListLt_cons] at h1 h2 ⊢
        rcases h1 with h1 | ⟨hab, h1⟩
        · rcases h2 with h2 | ⟨hbc, h2⟩
          · exact Or.inl (lt_trans h1 h2)
          · exact Or.inl (by rw [← hbc]; exact h1)
        · rcases h2 with h2 | ⟨hbc, h2⟩
          · exact Or.inl (by rw [hab]; exact h2)
          · exact Or.inr ⟨hab.trans hbc, ih m n h1 h2⟩

/-- The complement of the lexicographic comparison is transitive. -/
theorem charListLt_false_trans : ∀ (as bs cs : List Char),
    charListLt as bs = false → charListLt bs cs = false →
    charListLt as cs = false := by
  intro as
  induction as with
  | nil =>
    intro bs cs h1 h2
    cases bs with
    | nil =>
      cases cs with
      | nil => rfl
      | cons c n => simp [charListLt] at h2
    | cons b m => simp [charListLt] at h1
  | cons a l ih =>
    intro bs cs h1 h2
    cases bs with
    | nil =>
      cases cs with
      | nil => rfl
      | cons c n => simp [charListLt] at h2
    | cons b m =>
      cases cs with
      | nil => rfl
      | cons c n =>
        rw [charListLt_cons_false] at h1 h2 ⊢
        rcases h1 with h1 | ⟨hab, h1⟩
        · rcases h2 with h2 | ⟨hbc, h2⟩
          · exact Or.inl (lt_trans h2 h1)
          · exact Or.inl (by rw [← hbc]; exact h1)
        · rcases h2 with h2 | ⟨hbc, h2⟩
          · exact Or.inl (by rw [hab]; exact h2)
          · exact Or.inr ⟨hab.trans hbc, ih m n h1 h2⟩

/-- The lexicographic comparison is irreflexive. -/
theorem charListLt_irrefl : ∀ as, charListLt as as = false := by
  intro as
  induction as with
  | nil => rfl
  | cons a l ih =>
    rw [charListLt_cons_false]
    exact Or.inr ⟨rfl, ih⟩

/-- The argmin fold returns a candidate. -/
theorem argminBy_mem {α : Type} (lt : α → α → Bool) (best : α) (l : List α) :
    argminBy lt best l ∈ best :: l := by
  induction l generalizing best with
  | nil => exact List.mem_singleton.mpr rfl
  | cons x xs ih =>
    show argminBy lt (if lt x best then x else best) xs ∈ best :: x :: xs
    by_cases h : lt x best
    · rw [if_pos h]
      rcases List.mem_cons.mp (ih x) with h' | h'
      · rw [h']
        exact List.mem_cons_of_mem best (List.mem_cons_self x xs)
      · exact List.mem_cons_of_mem best (List.mem_cons_of_mem x h')
    · rw [if_neg h]
      rcases List.mem_cons.mp (ih best) with h' | h'
      · rw [h']
        exact List.mem_cons_self best _
      · exact List.mem_cons_of_mem best (List.mem_cons_of_mem x h')

/-- For a comparison whose positive and negative parts are both transitive
and which is irreflexive, no candidate beats the argmin fold's result. -/
theorem argminBy_min {α : Type} (lt : α → α → Bool)
    (htr : ∀ a b c, lt a b = true → lt b c = true → lt a c = true)
    (hco : ∀ a b c, lt a b = false → lt b c = false → lt a c = false)
    (hir : ∀ a, lt a a = false) (best : α) (l : List α) :
    ∀ y ∈ best :: l, lt y (argminBy lt best l) = false := by
  induction l generalizing best with
  | nil =>
    intro y hy
    rw [List.mem_singleton] at hy
    subst hy
    exact hir y
  | cons x xs ih =>
    intro y hy
    show lt y (argminBy lt (if lt x best then x else best) xs) = false
    by_cases h : lt x best
    · rw [if_pos h]
      rcases List.mem_cons.mp hy with h1 | h1
      · have hxR : lt x (argminBy lt x xs) = false :=
          ih x x (List.mem_cons_self x xs)
        cases hbr : lt y (argminBy lt x xs) with
        | false => rfl
        | true =>
          exfalso
          have hxy : lt x y = true := by rw [h1]; exact h
          have hxRt := htr x y (argminBy lt x xs) hxy hbr
          rw [hxRt] at hxR
          exact Bool.noConfusion hxR
      · exact ih x y h1
    · rw [if_neg h]
      have hx : lt x best = false := by
        revert h
        cases lt x best <;> simp
      rcases List.mem_cons.mp hy with h1 | h1
      · rw [h1]
        exact ih best best (List.mem_cons_self best xs)
      · rcases List.mem_cons.mp h1 with h2 | h2
        · have hbR : lt best (argminBy lt best xs) = false :=
            ih best best (List.mem_cons_self best xs)
          rw [h2]
          exact hco x best (argminBy lt best xs) hx hbR
        · exact ih best y (List.mem_cons_of_mem best h2)

/-- String lexicographic comparison is transitive. -/
theorem strLt_trans (a b c : String) (h1 : strLt a b = true)
    (h2 : strLt b c = true) : strLt a c = true :=
  charListLt_trans a.data b.data c.data h1 h2

/-- The complement of string comparison is transitive. -/
theorem strLt_false_trans (a b c : String) (h1 : strLt a b = false)
    (h2 : strLt b c = false) : strLt a c = false :=
  charListLt_false_trans a.data b.data c.data h1 h2

/-- String comparison is irreflexive. -/
theorem strLt_irrefl (a : String) : strLt a a = false :=
  charListLt_irrefl a.data

/-- Unfolding the nearest-centroid order, positive form. -/
theorem centroidKeyLt_iff (p : ℚ × ℚ) (a b : ResolverRegion) :
    centroidKeyLt p a b = true ↔
      sqDist (centroid a.polygon) p < sqDist (centroid b.polygon) p ∨
      (sqDist (centroid a.polygon) p = sqDist (centroid b.polygon) p ∧
        strLt a.region_id b.region_id = true) := by
  unfold centroidKeyLt
  simp [Bool.or_eq_true, Bool.and_eq_true, decide_eq_true_eq]

/-- Unfolding the nearest-centroid order, negative form. -/
theorem centroidKeyLt_false_iff (p : ℚ × ℚ) (a b : ResolverRegion) :
    centroidKeyLt p a b = false ↔
      sqDist (centroid b.polygon) p < sqDist (centroid a.polygon) p ∨
      (sqDist (centroid a.polygon) p = sqDist (centroid b.polygon) p ∧
        strLt a.region_id b.region_id = false) := by
  rw [← Bool.not_eq_true, centroidKeyLt_iff]
  constructor
  · intro h
    rcases lt_trichotomy (sqDist (centroid a.polygon) p)
      (sqDist (centroid b.polygon) p) with h1 | h1 | h1
    · exact absurd (Or.inl h1) h
    · refine Or.inr ⟨h1, ?_⟩
      cases hs : strLt a.region_id b.region_id with
      | false => rfl
      | true => exact absurd (Or.inr ⟨h1, hs⟩) h
    · exact Or.inl h1
  · rintro (h1 | ⟨h1, h2⟩) hcontra
    · rcases hcontra with h3 | ⟨h3, _⟩
      · exact absurd h3 (asymm h1)
      · exact absurd h3 (ne_of_gt h1)
    · rcases hcontra with h3 | ⟨h3, h4⟩
      · exact absurd h3 (by rw [h1]; exact lt_irrefl _)
      · rw [h2] at h4
        exact Bool.noConfusion h4

/-- The nearest-centroid order is transitive. -/
theorem centroidKeyLt_trans (p : ℚ × ℚ) : ∀ a b c : ResolverRegion,
    centroidKeyLt p a b = true → centroidKeyLt p b c = true →
    centroidKeyLt p a c = true := by
  intro a b c h1 h2
  rw [centroidKeyLt_iff] at h1 h2 ⊢
  rcases h1 with h1 | ⟨h1, h1b⟩
  · rcases h2 with h2 | ⟨h2, _⟩
    · exact Or.inl (lt_trans h1 h2)
    · exact Or.inl (by rw [← h2]; exact h1)
  · rcases h2 with h2 | ⟨h2, h2b⟩
    · exact Or.inl (by rw [h1]; exact h2)
    · exact Or.inr ⟨h1.trans h2, strLt_trans _ _ _ h1b h2b⟩

/-- The complement of the nearest-centroid order is transitive. -/
theorem centroidKeyLt_false_trans (p : ℚ × ℚ) : ∀ a b c : ResolverRegion,
    centroidKeyLt p a b = false → centroidKeyLt p b c = false →
    centroidKeyLt p a c = false := by
  intro a b c h1 h2
  rw [centroidKeyLt_false_iff] at h1 h2 ⊢
  rcases h1 with h1 | ⟨h1, h1b⟩
  · rcases h2 with h2 | ⟨h2, _⟩
    · exact Or.inl (lt_trans h2 h1)
    · exact Or.inl (by rw [← h2]; exact h1)
  · rcases h2 with h2 | ⟨h2, h2b⟩
    · exact Or.inl (by rw [h1]; exact h2)
    · exact Or.inr ⟨h1.trans h2, strLt_false_trans _ _ _ h1b h2b⟩

/-- The nearest-centroid order is irreflexive. -/
theorem centroidKeyLt_irrefl (p : ℚ × ℚ) (a : ResolverRegion) :
    centroidKeyLt p a a = false := by
  rw [centroidKeyLt_false_iff]
  exact Or.inr ⟨rfl, strLt_irrefl _⟩

/-- Claim C3 (spec-modelled): on a non-empty region list the resolver
always returns a region_id; when some polygon contains the point the chosen
region contains it and has the least region_id among the containing ones
(the first under ascending region_id order), and when no polygon contains
the point the chosen region minimizes the squared Euclidean centroid
distance, ties broken by ascending region_id.  Determinism over repeated
calls is immediate since resolve is a pure function of its arguments. -/
theorem C3_resolve (regions : List ResolverRegion) (p : ℚ × ℚ)
    (h : regions ≠ []) :
    ∃ r, r ∈ regions ∧ resolve regions p = some r.region_id ∧
      ((∃ q ∈ regions, containsPoint q.polygon p = true) →
        containsPoint r.polygon p = true ∧
        ∀ q ∈ regions, containsPoint q.polygon p = true →
          strLe r.region_id q.region_id = true) ∧
      ((∀ q ∈ regions, containsPoint q.polygon p = false) →
        ∀ q ∈ regions,
          sqDist (centroid r.polygon) p < sqDist (centroid q.polygon) p ∨
          (sqDist (centroid r.polygon) p = sqDist (centroid q.polygon) p ∧
            strLe r.region_id q.region_id = true)) := by
  rcases hf : regions.filter (fun r => containsPoint r.polygon p) with _ | ⟨c, cs⟩
  · rcases hreg : regions with _ | ⟨r0, rs⟩
    · exact absurd hreg h
    · subst hreg
      refine ⟨argminBy (centroidKeyLt p) r0 rs, argminBy_mem _ r0 rs, ?_, ?_, ?_⟩
      · unfold resolve
        rw [hf]
      · rintro ⟨q, hq, hqc⟩
        exfalso
        have hmem : q ∈ (r0 :: rs).filter (fun r => containsPoint r.polygon p) :=
          List.mem_filter.mpr ⟨hq, hqc⟩
        rw [hf] at hmem
        exact absurd hmem (List.not_mem_nil q)
      · intro _ q hq
        have hmin := argminBy_min (centroidKeyLt p) (centroidKeyLt_trans p)
          (centroidKeyLt_false_trans p) (centroidKeyLt_irrefl p) r0 rs q hq
        rw [centroidKeyLt_false_iff] at hmin
        rcases hmin with h1 | ⟨h1, h2⟩
        · exact Or.inl h1
        · refine Or.inr ⟨h1.symm, ?_⟩
          unfold strLe
          rw [h2]
          rfl
  · have hmemf : argminBy idLtR c cs ∈
        regions.filter (fun r => containsPoint r.polygon p) := by
      rw [hf]
      exact argminBy_mem idLtR c cs
    obtain ⟨hmemr, hcont⟩ := List.mem_filter.mp hmemf
    refine ⟨argminBy idLtR c cs, hmemr, ?_, ?_, ?_⟩
    · unfold resolve
      rw [hf]
    · intro _
      refine ⟨hcont, ?_⟩
      intro q hq hqc
      have hqf : q ∈ regions.filter (fun r => containsPoint r.polygon p) :=
        List.mem_filter.mpr ⟨hq, hqc⟩
      rw [hf] at hqf
      have hmin := argminBy_min idLtR
        (fun a b c h1 h2 => strLt_trans _ _ _ h1 h2)
        (fun a b c h1 h2 => strLt_false_trans _ _ _ h1 h2)
        (fun a => strLt_irrefl _) c cs q hqf
      have hmin' : strLt q.region_id (argminBy idLtR c cs).region_id = false := hmin
      unfold strLe
      rw [hmin']
      rfl
    · intro hall
      exfalso
      have hcf : c ∈ regions.filter (fun r => containsPoint r.polygon p) := by
        rw [hf]
        exact List.mem_cons_self c cs
      obtain ⟨hcr, hcc⟩ := List.mem_filter.mp hcf
      rw [hall c hcr] at hcc
      exact Bool.noConfusion hcc

/-- Claim C3 witness: the resolver applied to the two-square demo and the
point (1/2, 1/2), which lies strictly inside square A. -/
theorem C3_resolve_witness :
    ∃ r, r ∈ demoRegions ∧
      resolve demoRegions (mkRat 1 2, mkRat 1 2) = some r.region_id ∧
      ((∃ q ∈ demoRegions,
          containsPoint q.polygon (mkRat 1 2, mkRat 1 2) = true) →
        containsPoint r.polygon (mkRat 1 2, mkRat 1 2) = true ∧
        ∀ q ∈ demoRegions,
          containsPoint q.polygon (mkRat 1 2, mkRat 1 2) = true →
          strLe r.region_id q.region_id = true) ∧
      ((∀ q ∈ demoRegions,
          containsPoint q.polygon (mkRat 1 2, mkRat 1 2) = false) →
        ∀ q ∈ demoRegions,
          sqDist (centroid r.polygon) (mkRat 1 2, mkRat 1 2) <
            sqDist (centroid q.polygon) (mkRat 1 2, mkRat 1 2) ∨
          (sqDist (centroid r.polygon) (mkRat 1 2, mkRat 1 2) =
            sqDist (centroid q.polygon) (mkRat 1 2, mkRat 1 2) ∧
            strLe r.region_id q.region_id = true)) :=
  C3_resolve demoRegions (mkRat 1 2, mkRat 1 2) (by decide)
